import Mathlib

/-!
# Verification of the go-exasol-client core against its specification

This file gives a shallow embedding, in Lean 4, of the parts of the
go-exasol-client Go library that the specification's claims are about, and
proves (or refutes) each claim against that embedding.

Embedded source functions (file and symbol names follow the Go source):

* `websocket.go`: `send` / `asyncSend` (the request/response receiver)
* `bulk_api.go`: `StreamExecute` and `retryableError`
* `client.go`: `Connect` / `login` (transport lifecycle), `DisableAutoCommit`,
  `resultsToChan`
* `prep-stmt.go`: `getPrepStmt` (prepared-statement cache with LRU pruning)
* `proxy.go`: `NewProxy` (binary handshake)
* `utils.go`: `Transpose`, `transposeToChan`

Go maps are embedded as association lists, Go `time.Time` values as natural
numbers, machine integers as `Nat`/`Int`, byte buffers as `List Nat`, and
fallible or panicking code as `Option`/`Except`-valued functions.  I/O is
embedded by passing the outcomes of reads and writes in as explicit oracle
arguments.
-/

namespace GoExasol

/-! ## Literal string matching

Go's `regexp.MustCompile` is applied in the source to three patterns.  Two of
them (`abnormal closure`, `Statement handle not found`) contain no
metacharacters, so matching is plain substring containment.  The third
(`failed after 0 bytes.+Connection refused`) additionally uses `.+`, where `.`
matches any character except a newline; it is embedded separately below.
-/

/-- Substring containment on character lists: does `pat` occur (contiguously)
anywhere in the list? -/
def subOf (pat : List Char) : List Char → Bool
  | [] => pat.isEmpty
  | c :: rest => pat.isPrefixOf (c :: rest) || subOf pat rest

/-- Substring containment on strings; the embedding of a Go
`regexp.MustCompile(lit).MatchString(s)` call whose pattern `lit` is free of
metacharacters. -/
def strContainsSub (s pat : String) : Bool :=
  subOf pat.data s.data

/-- Helper for the `.+` regex fragment: after consuming at least one
non-newline character, does `p2` match at some later point, with every
character consumed before it also a non-newline?  (Characters matched by `.`
may not be newlines in Go's default regexp mode.) -/
def gapThenLit (p2 : List Char) : List Char → Bool
  | [] => false
  | c :: rest => !(c == '\n') && (p2.isPrefixOf rest || gapThenLit p2 rest)

/-- Matcher for an unanchored Go regular expression of the shape
`lit1.+lit2`: some position of the subject starts with `p1`, followed by one
or more non-newline characters, followed by `p2`. -/
def litGapLit (p1 p2 : List Char) : List Char → Bool
  | [] => false
  | c :: rest =>
    (p1.isPrefixOf (c :: rest) && gapThenLit p2 ((c :: rest).drop p1.length))
      || litGapLit p1 p2 rest

/-! ## `websocket.go`: `send` and `asyncSend` (claim C1)

`asyncSend` writes the request and returns a receiver closure.  The receiver
reads one JSON response, classifies read failures, checks the decoded
response's `Status` field, and otherwise leaves the caller's response value
populated in place.  The transport read outcome is embedded as an explicit
argument: either a read error message, or the decoded response.
-/

/-- The part of a decoded response the receiver inspects reflectively:
the `Status` field and (on failure) the `Exception.Text` field. -/
structure WsResponse where
  Status : String
  ExceptionText : String
  deriving Repr, DecidableEq

/-- Outcome of the transport's `ReadJSON` call: an I/O error with a message,
or a successfully decoded response. -/
inductive ReadOutcome where
  | readErr (msg : String)
  | readOk (resp : WsResponse)
  deriving Repr, DecidableEq

/-- Embedding of the receiver closure returned by `asyncSend`
(`websocket.go` lines 111-128).  Returns the Go error (`none` = nil) and the
caller's response value as populated by the read (`none` = not populated,
because the read itself failed). -/
def receiveGo : ReadOutcome → Option String × Option WsResponse
  | .readErr msg =>
    if strContainsSub msg "abnormal closure" then
      (some "Server terminated statement", none)
    else
      (some ("WebSocket API Error recving: " ++ msg), none)
  | .readOk resp =>
    if resp.Status == "ok" then
      (none, some resp)
    else
      (some ("Server Error: " ++ resp.ExceptionText), some resp)

/-- Embedding of `send` (`websocket.go` lines 97-103): a write followed by an
immediate invocation of the receiver.  `writeErr` is the outcome of the
transport's `WriteJSON` call. -/
def sendGo (writeErr : Option String) (read : ReadOutcome) :
    Option String × Option WsResponse :=
  match writeErr with
  | some e => (some ("WebSocket API Error sending: " ++ e), none)
  | none => receiveGo read

/-! ## `bulk_api.go`: `retryableError` and `StreamExecute` (claim C2) -/

/-- Embedding of `retryableError` (`bulk_api.go` lines 321-328): the error is
non-nil and its message matches `failed after 0 bytes.+Connection refused`. -/
def retryableError (err : Option String) : Bool :=
  match err with
  | none => false
  | some e =>
    litGapLit "failed after 0 bytes".data "Connection refused".data e.data

/-- Embedding of `StreamExecute`'s retry loop (`bulk_api.go` lines 102-126).
A single attempt (`streamExecuteNoRetry`) is abstracted as an oracle giving,
for each attempt index, the bytes written and the Go error of that attempt.
The result is the error returned to the caller together with the number of
attempts that were made.  The loop body ranges over a two-element slice, so a
`continue` on the second pass falls off the loop and returns nil. -/
def streamExecuteGo (attempt : Nat → Int × Option String) :
    Option String × Nat :=
  match attempt 0 with
  | (_, none) => (none, 1)
  | (bw1, some e1) =>
    if retryableError (some e1) then
      if bw1 = 0 then
        -- first pass: `continue`; second pass of the loop follows
        match attempt 1 with
        | (_, none) => (none, 2)
        | (bw2, some e2) =>
          if retryableError (some e2) then
            if bw2 = 0 then (none, 2) -- `continue` exhausts the loop: returns nil
            else (some e2, 2)
          else (some e2, 2)
      else (some e1, 1)
    else (some e1, 1)

/-! ## `utils.go`: `Transpose` and `transposeToChan` (claims C8, C3)

Go's dynamic `interface{}` matrix entries are embedded as values of an
arbitrary inhabited type `V`, with `default` standing for Go's `nil` (the
zero value the `make` calls fill fresh slices with).  Indexing panics are
embedded as `none`.
-/

variable {V : Type} [Inhabited V]

/-- Embedding of `Transpose` (`utils.go` lines 87-101).  `matrix[0]` panics on
an empty matrix, and writing `ret[x][y]` panics when a later row is longer
than row 0 (`x` would exceed `numCols`); both panics are embedded as `none`.
Rows shorter than row 0 leave the corresponding cells at their zero value
(`default`). -/
def Transpose (matrix : List (List V)) : Option (List (List V)) :=
  match matrix with
  | [] => none
  | r0 :: _ =>
    let numRows := matrix.length
    let numCols := r0.length
    if matrix.all fun r => r.length ≤ numCols then
      some ((List.range numCols).map fun x =>
        (List.range numRows).map fun y => ((matrix.getD y []).getD x default))
    else none

/-- Embedding of `transposeToChan` (`utils.go` lines 121-130), which turns one
column-major chunk into the row-major tuples sent down the channel.
`matrix[0]` panics on an empty chunk and `matrix[col][row]` panics when some
column is shorter than column 0; both are embedded as `none`. -/
def transposeToChan (matrix : List (List V)) : Option (List (List V)) :=
  match matrix with
  | [] => none
  | c0 :: _ =>
    if matrix.all fun c => c0.length ≤ c.length then
      some ((List.range c0.length).map fun row =>
        matrix.map fun c => c.getD row default)
    else none

/-! ## `client.go`: `resultsToChan` (claim C3)

The background producer started by `FetchChan`.  The `fetch` round-trips are
abstracted as an oracle from start positions to either an error or the
response's `responseData` (`numRows` plus columnar `data`).  The channel-level
observables of a run are: the rows emitted and whether `close(ch)` was
reached.  A `panic` aborts the goroutine before the final `close(ch)` (there
is no `defer close`), so a panicking run never closes the channel.  The
`while` loop advances only when fetches report progress; runs are therefore
modelled relative to an explicit iteration bound (`fuel`), with exhaustion
standing for a run that loops without ever closing the channel.
-/

/-- The fields of a `fetch` response's `responseData` the producer uses. -/
structure FetchData (V : Type) where
  numRows : Nat
  data : List (List V)
  deriving Repr

/-- Observable outcome of one run of the background producer: the rows that
were sent down the channel, and how the goroutine ended. -/
inductive RunOutcome (V : Type) where
  /-- the final `close(ch)` was reached after emitting these rows -/
  | closed (rows : List (List V))
  /-- the goroutine panicked; `close(ch)` was never executed -/
  | panicked (rows : List (List V)) (msg : String)
  /-- the iteration bound was exhausted with the loop still running -/
  | hung (rows : List (List V))
  deriving Repr

/-- Did the run close the channel? -/
def RunOutcome.isClosed : RunOutcome V → Bool
  | .closed _ => true
  | _ => false

/-- The paging loop of `resultsToChan` (`client.go` lines 461-477): while
`i < numRows`, send a `fetch` at start position `i`; a fetch error panics
(`client.go` line 473); otherwise advance `i` by the chunk's `numRows` and
emit the transposed chunk. -/
def fetchLoop (fetch : Nat → Except String (FetchData V)) (total : Nat) :
    Nat → Nat → List (List V) → RunOutcome V
  | 0, i, acc => if i < total then .hung acc else .closed acc
  | fuel + 1, i, acc =>
    if i < total then
      match fetch i with
      | .error e => .panicked acc e
      | .ok fd =>
        match transposeToChan fd.data with
        | none => .panicked acc "transposeToChan: index out of range"
        | some rows => fetchLoop fetch total fuel (i + fd.numRows) (acc ++ rows)
    else .closed acc

/-- The fields of the initial `resultSet` response the producer uses. -/
structure ResultSetData (V : Type) where
  resultSetHandle : Int
  numRows : Nat
  data : List (List V)
  deriving Repr

/-- Embedding of `resultsToChan` (`client.go` lines 457-491).  The three
branches mirror the source: nothing to emit, server-side paging via the
result-set handle, or an inline data block.  After the paging loop the
`closeResultSet` request is sent, whose error is only logged; the final
`close(ch)` is represented by the `.closed` outcome. -/
def resultsToChan (fetch : Nat → Except String (FetchData V)) (fuel : Nat)
    (rs : ResultSetData V) : RunOutcome V :=
  if rs.numRows = 0 then .closed []
  else if 0 < rs.resultSetHandle then fetchLoop fetch rs.numRows fuel 0 []
  else
    match transposeToChan rs.data with
    | none => .panicked [] "transposeToChan: index out of range"
    | some rows => .closed rows

/-! ## `proxy.go`: `NewProxy` (claim C5)

Bytes are embedded as natural numbers below 256.  The 24-byte reply read from
the socket is passed in as an argument; the 12 bytes written by the handshake
and the `Host`/`Port` fields derived from the reply are the observables.
-/

/-- Little-endian byte encoding of a `u32`, as produced by Go's
`binary.LittleEndian.PutUint32`. -/
def leU32 (n : Nat) : List Nat :=
  [n % 256, n / 256 % 256, n / 65536 % 256, n / 16777216 % 256]

/-- Little-endian `u32` decoding of the first four bytes of a buffer, as done
by Go's `binary.LittleEndian.Uint32`. -/
def readLEU32 (b : List Nat) : Nat :=
  b.getD 0 0 + 256 * b.getD 1 0 + 65536 * b.getD 2 0 + 16777216 * b.getD 3 0

/-- Embedding of `bytes.Trim(b, "\x00")`: remove leading and trailing NUL
bytes. -/
def bytesTrimNul (b : List Nat) : List Nat :=
  (((b.dropWhile fun x => x == 0).reverse).dropWhile fun x => x == 0).reverse

/-- The observables of `NewProxy` (`proxy.go` lines 39-75): the request
bytes written to the socket, and the `Port` and `Host` fields. -/
structure ProxySetup where
  written : List Nat
  Port : Nat
  Host : List Nat
  deriving Repr, DecidableEq

/-- The 12-byte handshake written by `NewProxy` (`proxy.go` lines 54-58):
three little-endian `u32` values `0x02212102`, `1`, `1`. -/
def proxyHandshakeReq : List Nat :=
  leU32 0x02212102 ++ leU32 1 ++ leU32 1

/-- Embedding of `NewProxy` (`proxy.go` lines 39-75) as a function of the
24-byte reply: write the handshake, then set `Port` from the little-endian
`u32` at offset 4 and `Host` from the NUL-trimmed bytes from offset 8 on. -/
def NewProxy (resp : List Nat) : ProxySetup :=
  { written := proxyHandshakeReq
    Port := readLEU32 (resp.drop 4)
    Host := bytesTrimNul (resp.drop 8) }

/-! ## `prep-stmt.go`: the prepared-statement cache (claims C4, C9, C10)

The Go cache `map[string]*prepStmt` is embedded as an association list with
(by construction) distinct keys; `time.Time` values as naturals.  The
`createPreparedStatement` round-trip of a cache miss is abstracted by passing
in the server-assigned handle and parameter columns; `time.Now()` by passing
in the current instant `now`.  (The entry created on a miss receives one
`time.Now()` inside `createPrepStmt` and is immediately overwritten by the
`ps.lastUsed = time.Now()` on line 66, so both calls are collapsed into
`now`.)  The observables of one call are: the returned statement, the new
cache and stats, whether a `createPreparedStatement` request was sent, the
handles for which `closePreparedStatement` requests were sent, and the keys
deleted from the cache.
-/

/-- Embedding of the `prepStmt` struct (`prep-stmt.go` lines 42-46). -/
structure prepStmt where
  sth : Nat
  lastUsed : Nat
  columnDefs : List String
  deriving Repr, DecidableEq

/-- The prepared-statement cache: `map[string]*prepStmt`. -/
abbrev PrepCache := List (String × prepStmt)

/-- The two session statistics the cache maintains (`c.Stats`). -/
structure CacheStats where
  StmtCacheLen : Nat
  StmtCacheMiss : Nat
  deriving Repr, DecidableEq

/-- Map lookup `psc[sql]`. -/
def cacheFind (psc : PrepCache) (sql : String) : Option prepStmt :=
  (psc.find? fun e => e.1 == sql).map Prod.snd

/-- The in-place `ps.lastUsed = time.Now()` of `prep-stmt.go` line 66: `ps`
aliases the cache entry, so the entry keyed by `sql` is updated. -/
def cacheTouch (psc : PrepCache) (sql : String) (now : Nat) : PrepCache :=
  psc.map fun e => if e.1 == sql then (e.1, { e.2 with lastUsed := now }) else e

/-- The cache as it stands just before the pruning step of `getPrepStmt`:
after the miss-path insertion (`psc[sql] = ps`, line 62) and the
`ps.lastUsed = time.Now()` update (line 66). -/
def touchedCache (now newSth : Nat) (newDefs : List String) (psc : PrepCache)
    (sql : String) : PrepCache :=
  match cacheFind psc sql with
  | some _ => cacheTouch psc sql now
  | none => cacheTouch (psc ++ [(sql, ⟨newSth, now, newDefs⟩)]) sql now

/-- The entry `psc[sortedStmts[0]]` selected by the pruning step: sorting the
keys ascending by `lastUsed` (`sort.Slice` with `Before`, lines 72-81) and
taking the first yields an entry whose `lastUsed` is minimal. -/
def oldestIn (best : String × prepStmt) : PrepCache → String × prepStmt
  | [] => best
  | e :: rest => oldestIn (if e.2.lastUsed < best.2.lastUsed then e else best) rest

/-- The observables of one `getPrepStmt` call. -/
structure GetPrepResult where
  ps : prepStmt
  cache : PrepCache
  stats : CacheStats
  createdSent : Bool
  closedSent : List Nat
  evicted : List String
  deriving Repr

/-- The statement handed back to the caller: the cache entry (or the freshly
created one) with its `lastUsed` stamped to the current time. -/
def returnedStmt (now newSth : Nat) (newDefs : List String) (psc : PrepCache)
    (sql : String) : prepStmt :=
  match cacheFind psc sql with
  | some p => { p with lastUsed := now }
  | none => ⟨newSth, now, newDefs⟩

/-- The pruning block of `getPrepStmt` (`prep-stmt.go` lines 71-84): when the
cache holds more than 1000 entries, pick an entry with the oldest `lastUsed`
(the head of the keys sorted ascending by `lastUsed`), send
`closePreparedStatement` for its handle, and delete it.  Returns the pruned
cache, the close requests sent, and the deleted keys. -/
def pruneCache (psc2 : PrepCache) : PrepCache × List Nat × List String :=
  if 1000 < psc2.length then
    match psc2 with
    | [] => (psc2, [], []) -- unreachable: psc2 is nonempty
    | e :: rest =>
      let least := oldestIn e rest
      (List.eraseP (fun x => x.1 == least.1) psc2, [least.2.sth], [least.1])
  else (psc2, [], [])

/-- Embedding of `getPrepStmt` (`prep-stmt.go` lines 48-87): look up the SQL
text; on a miss send `createPreparedStatement`, insert the new entry and
update `StmtCacheLen`/`StmtCacheMiss`; stamp the returned entry's `lastUsed`
with the current time; then prune the cache. -/
def getPrepStmt (now newSth : Nat) (newDefs : List String) (psc : PrepCache)
    (stats : CacheStats) (sql : String) : GetPrepResult :=
  let created := (cacheFind psc sql).isNone
  let stats1 : CacheStats :=
    if created then ⟨psc.length + 1, stats.StmtCacheMiss + 1⟩ else stats
  let pruned := pruneCache (touchedCache now newSth newDefs psc sql)
  ⟨returnedStmt now newSth newDefs psc sql, pruned.1, stats1, created,
    pruned.2.1, pruned.2.2⟩

/-! ## `client.go`: `DisableAutoCommit` (claim C6)

The request is a free-form Go map; its JSON serialization is embedded by a
small attribute-object model.  Go's `encoding/json` marshals map keys in
sorted order and the exact order is irrelevant to the claim.
-/

/-- A JSON attribute value as it appears in a `setAttributes` block. -/
inductive JAttr where
  | jbool (b : Bool)
  | jnum (n : Nat)
  | jstr (s : String)
  deriving Repr, DecidableEq

/-- Serialize one attribute value, as `encoding/json` does. -/
def serializeJAttr : JAttr → String
  | .jbool b => if b then "true" else "false"
  | .jnum n => toString n
  | .jstr s => "\"" ++ s ++ "\""

/-- Serialize an attributes object, as `encoding/json` does. -/
def serializeAttrs (fs : List (String × JAttr)) : String :=
  "\x7b"
    ++ String.intercalate ","
      (fs.map fun f => "\"" ++ f.1 ++ "\":" ++ serializeJAttr f.2)
    ++ "\x7d"

/-- A `setAttributes` request: the `command` field plus the attributes
object. -/
structure SetAttrReq where
  command : String
  attributes : List (String × JAttr)
  deriving Repr, DecidableEq

/-- The request sent by `DisableAutoCommit` (`client.go` lines 147-152): a
hand-rolled map with `autocommit` set to `false`, used precisely because the
`Attributes` struct's `omitempty` tag would drop the `false` value. -/
def disableAutoCommitReq : SetAttrReq :=
  { command := "setAttributes"
    attributes := [("autocommit", .jbool false)] }

/-- Embedding of what `encoding/json` would produce for the `autocommit`
field of the `Attributes` struct (`prep-stmt.go` lines 159-175), whose
`json:"autocommit,omitempty"` tag omits the field when the value is the zero
value `false`. -/
def marshalAutocommitOmitempty (autocommit : Bool) : List (String × JAttr) :=
  if autocommit then [("autocommit", .jbool true)] else []

/-- Modelled from the spec: the server's handling of a `setAttributes`
request (§4.4) — the session's `autocommit` attribute takes the value
transmitted in the request's attributes block, and keeps its previous value
when the key is absent.  The server itself is not part of this repository. -/
def applySetAttributes (autocommit : Bool) (req : SetAttrReq) : Bool :=
  if req.command == "setAttributes" then
    match req.attributes.find? fun f => f.1 == "autocommit" with
    | some (_, .jbool b) => b
    | _ => autocommit
  else autocommit

/-! ## `client.go`: `Connect` / `login` transport lifecycle (claim C7)

`Connect` (lines 76-104) dials the websocket via `wsConnect` and then runs
`login` (lines 315-374).  The outcomes of the dial and of the three
fallible login steps (the `login` request, the password encryption, the
`authReq` round-trip) are passed in as oracle arguments.  The observables
are whether `Connect` returns an error, whether a transport was opened
(`c.ws` was set), and whether that transport was closed before `Connect`
returned.  The source contains no `Close` call on any of these paths.
-/

/-- Outcome of `login` (`client.go` lines 315-374), by first failing step. -/
inductive LoginOutcome where
  /-- the `login` protocol request failed (line 321) -/
  | loginReqFail
  /-- `rsa.EncryptPKCS1v15` failed (line 337) -/
  | encryptFail
  /-- the authentication round-trip failed (line 363) -/
  | authFail
  /-- login succeeded -/
  | success
  deriving Repr, DecidableEq

/-- Embedding of `login`'s early-return structure: the Go error it returns
(`none` = nil).  None of its failure paths touches the transport. -/
def loginGo : LoginOutcome → Option String
  | .loginReqFail => some "login request failed"
  | .encryptFail => some "Password encryption error"
  | .authFail => some "Unable to authenticate"
  | .success => none

/-- Transport-lifecycle observables of one `Connect` call. -/
structure ConnectResult where
  returnedErr : Bool
  transportOpened : Bool
  transportClosed : Bool
  deriving Repr, DecidableEq

/-- Embedding of `Connect` (`client.go` lines 76-104): a failed dial returns
the error with no transport opened; a successful dial sets `c.ws`; a `login`
failure returns the error.  No path closes the opened transport before
returning. -/
def ConnectGo (dialOk : Bool) (lo : LoginOutcome) : ConnectResult :=
  if dialOk then
    match loginGo lo with
    | some _ => { returnedErr := true, transportOpened := true, transportClosed := false }
    | none => { returnedErr := false, transportOpened := true, transportClosed := false }
  else
    { returnedErr := true, transportOpened := false, transportClosed := false }

/-! ## Claim C1 -/

/-- C1: for every request/response exchange performed by the receiver
returned from `asyncSend` (and hence by `send`): a transport read failure
whose message matches `abnormal closure` yields the
server-terminated-statement error; any other read failure yields the
transport-receive error; a decoded response whose status is not `ok` yields
the server error carrying the exception text; otherwise no error is returned
and the caller's response value is populated in place. -/
theorem receive_error_classification :
    (∀ msg, strContainsSub msg "abnormal closure" = true →
      receiveGo (.readErr msg) = (some "Server terminated statement", none)) ∧
    (∀ msg, strContainsSub msg "abnormal closure" = false →
      receiveGo (.readErr msg)
        = (some ("WebSocket API Error recving: " ++ msg), none)) ∧
    (∀ resp : WsResponse, resp.Status ≠ "ok" →
      (receiveGo (.readOk resp)).1
        = some ("Server Error: " ++ resp.ExceptionText)) ∧
    (∀ resp : WsResponse, resp.Status = "ok" →
      receiveGo (.readOk resp) = (none, some resp)) ∧
    (∀ read, sendGo none read = receiveGo read) := by
  refine ⟨?_, ?_, ?_, ?_, fun _ => rfl⟩
  · intro msg h
    simp [receiveGo, h]
  · intro msg h
    simp [receiveGo, h]
  · intro resp h
    simp [receiveGo, h]
  · intro resp h
    simp [receiveGo, h]

/-- Witness for `receive_error_classification` at concrete exchanges: an
`abnormal closure` read failure and a non-`ok` response. -/
theorem receive_error_classification_witness :
    receiveGo (.readErr "websocket: close 1006 (abnormal closure): EOF")
      = (some "Server terminated statement", none) ∧
    (receiveGo (.readOk ⟨"error", "syntax error"⟩)).1
      = some ("Server Error: " ++ "syntax error") := by
  have h := receive_error_classification
  exact ⟨h.1 _ (by decide), h.2.2.1 _ (by decide)⟩

/-! ## Claim C2 -/

/-- C2: `StreamExecute` makes at most two attempts; a second attempt happens
exactly when the first failed with a retryable error (message matching
`failed after 0 bytes.+Connection refused`) and zero bytes written; when the
first attempt fails non-retryably or after writing bytes, its error is
returned with no further attempt. -/
theorem StreamExecute_retry_policy (attempt : Nat → Int × Option String) :
    (streamExecuteGo attempt).2 ≤ 2 ∧
    ((streamExecuteGo attempt).2 = 2 ↔
      ∃ e, (attempt 0).2 = some e ∧ retryableError (some e) = true ∧
        (attempt 0).1 = 0) ∧
    (∀ e, (attempt 0).2 = some e →
      retryableError (some e) = false ∨ (attempt 0).1 ≠ 0 →
      streamExecuteGo attempt = (some e, 1)) := by
  rcases h0 : attempt 0 with ⟨bw1, e1⟩
  rcases h1 : attempt 1 with ⟨bw2, e2⟩
  refine ⟨?_, ?_, ?_⟩
  · rcases e1 with _ | e1
    · simp [streamExecuteGo, h0]
    · rcases e2 with _ | e2 <;>
        simp only [streamExecuteGo, h0, h1] <;> split_ifs <;> simp
  · rcases e1 with _ | e1
    · simp [streamExecuteGo, h0]
    · rcases e2 with _ | e2 <;>
        simp only [streamExecuteGo, h0, h1] <;> split_ifs <;> simp_all
  · intro e he hor
    rcases e1 with _ | e1
    · simp [h0] at he
    · simp only [h0] at he
      obtain rfl : e1 = e := by injection he
      rcases hor with hor | hor
      · simp [streamExecuteGo, h0, hor]
      · simp only [streamExecuteGo, h0]
        simp [hor]

/-- Witness for `StreamExecute_retry_policy`: a non-retryable first failure
is returned after a single attempt. -/
theorem StreamExecute_retry_policy_witness :
    streamExecuteGo (fun _ => ((0 : Int), some "syntax error")) =
      (some "syntax error", 1) := by
  exact (StreamExecute_retry_policy fun _ => ((0 : Int), some "syntax error")).2.2
    "syntax error" rfl (Or.inl (by decide))

/-! ## Claim C3 -/

/-- C3: the claim states that the background producer's row channel is
eventually closed even when a `fetch` of a paged result set fails.  The code
instead panics on a fetch error (`client.go` line 473) without any
`defer close`, so the channel is never closed on that path: evaluating the
producer on a paged result set (handle 1, five rows) whose first fetch fails
shows the run ends panicked with the channel unclosed. -/
theorem resultsToChan_fetch_failure_unclosed :
    resultsToChan (V := Nat) (fun _ => .error "websocket recv failed") 5
        ⟨1, 5, []⟩
      = .panicked [] "websocket recv failed" ∧
    (resultsToChan (V := Nat) (fun _ => .error "websocket recv failed") 5
        ⟨1, 5, []⟩).isClosed = false := by
  exact ⟨rfl, rfl⟩

/-! ## Claim C6 -/

/-- C6: `DisableAutoCommit` sends a `setAttributes` request whose attributes
block literally contains `autocommit` set to `false`; its serialization
contains the text `"autocommit":false`; applying the request to any session
state leaves `autocommit` false; by contrast, `omitempty` struct marshaling
would drop the field entirely. -/
theorem DisableAutoCommit_transmits_false :
    disableAutoCommitReq.command = "setAttributes" ∧
    (disableAutoCommitReq.attributes.find? fun f => f.1 == "autocommit")
      = some ("autocommit", .jbool false) ∧
    strContainsSub (serializeAttrs disableAutoCommitReq.attributes)
      "\"autocommit\":false" = true ∧
    (∀ cur, applySetAttributes cur disableAutoCommitReq = false) ∧
    strContainsSub (serializeAttrs (marshalAutocommitOmitempty false))
      "autocommit" = false := by
  refine ⟨rfl, by decide, by decide, ?_, by decide⟩
  intro cur
  rfl

/-! ## Claim C7 -/

/-- C7 counterexample: `Connect` with a successful dial and a failed
authentication returns an error, yet the opened transport is not closed
before `Connect` returns — refuting the claim that the transport is closed
on every failure path. -/
theorem Connect_close_counterexample :
    (ConnectGo true .authFail).returnedErr = true ∧
    (ConnectGo true .authFail).transportOpened = true ∧
    (ConnectGo true .authFail).transportClosed = false := by
  decide

/-- C7 (amended): whenever `Connect` fails it returns an error, but the
transport is never closed before `Connect` returns; on a handshake failure
no transport was opened, while on a login or authentication failure the
opened transport remains open. -/
theorem Connect_failure_transport_state (dialOk : Bool) (lo : LoginOutcome) :
    (dialOk = false ∨ lo ≠ .success → (ConnectGo dialOk lo).returnedErr = true) ∧
    (ConnectGo dialOk lo).transportClosed = false ∧
    (ConnectGo dialOk lo).transportOpened = dialOk := by
  rcases dialOk <;> rcases lo <;> simp [ConnectGo, loginGo]

/-- Witness for `Connect_failure_transport_state` at a concrete failed
authentication. -/
theorem Connect_failure_transport_state_witness :
    (ConnectGo true .authFail).returnedErr = true := by
  exact (Connect_failure_transport_state true .authFail).1 (Or.inr (by decide))

/-! ## Claim C8 -/

/-- Reading back every position of a list by `getD` reconstructs the list. -/
theorem map_getD_range {α : Type} (l : List α) (d : α) :
    (List.range l.length).map (fun i => l.getD i d) = l := by
  apply List.ext_getElem
  · simp
  · intro i h1 h2
    simp only [List.getElem_map, List.getElem_range]
    rw [List.getD_eq_getElem _ _ h2]

/-- `Transpose` on a nonempty rectangular matrix: the result is the
column-indexed table of entries. -/
theorem Transpose_eq_of_rect (m : List (List V)) (L : Nat) (hne : m ≠ [])
    (hrect : ∀ r ∈ m, r.length = L) :
    Transpose m = some ((List.range L).map fun x =>
      (List.range m.length).map fun y => (m.getD y []).getD x default) := by
  rcases m with _ | ⟨r0, rest⟩
  · exact absurd rfl hne
  · have hr0 : r0.length = L := hrect r0 (by simp)
    simp only [Transpose]
    rw [if_pos]
    · rw [hr0]
    · rw [List.all_eq_true]
      intro r hr
      simp [hrect r hr, hr0]

/-- C8 counterexample: for the non-empty matrix `[[]]` the inner transpose
yields the empty list and the outer transpose panics on it
(`matrix[0]` out of range), so `Transpose (Transpose [[]])` is not
`some [[]]`. -/
theorem Transpose_involution_counterexample :
    (Transpose ([[]] : List (List Nat))).bind Transpose ≠ some [[]] := by
  decide

/-- C8 (amended): for every non-empty rectangular matrix whose rows are
non-empty (all rows share the same positive length), transposing twice gives
back the matrix.  (For a matrix with empty rows the inner transpose returns
the empty matrix, on which the outer transpose panics; for a ragged matrix
with a row longer than the first, `Transpose` itself panics.) -/
theorem Transpose_involution (m : List (List V)) (L : Nat) (hL : 0 < L)
    (hne : m ≠ []) (hrect : ∀ r ∈ m, r.length = L) :
    (Transpose m).bind Transpose = some m := by
  have h1 := Transpose_eq_of_rect m L hne hrect
  set R := m.length with hR
  set T : List (List V) := (List.range L).map fun x =>
    (List.range R).map fun y => (m.getD y []).getD x default with hT
  rw [h1]
  show Transpose T = some m
  have hTlen : T.length = L := by simp [hT]
  have hTne : T ≠ [] := by
    intro h
    rw [h] at hTlen
    simp at hTlen
    omega
  have hTrect : ∀ t ∈ T, t.length = R := by
    intro t ht
    rw [hT] at ht
    simp only [List.mem_map, List.mem_range] at ht
    obtain ⟨x, _, rfl⟩ := ht
    simp
  have h2 := Transpose_eq_of_rect T R hTne hTrect
  rw [h2, hTlen]
  congr 1
  have hentry : ∀ y < R, ∀ x < L,
      (T.getD x []).getD y default = (m.getD y []).getD x default := by
    intro y hy x hx
    have hx2 : x < T.length := by omega
    have hTx : T.getD x [] = (List.range R).map
        fun y => (m.getD y []).getD x default := by
      rw [List.getD_eq_getElem _ _ hx2]
      simp [hT, hx]
    rw [hTx, List.getD_eq_getElem _ _ (by simp [hy]),
      List.getElem_map, List.getElem_range]
  apply List.ext_getElem
  · simp [hR]
  · intro y hy1 hy2
    have hyR : y < R := by simpa using hy1
    simp only [List.getElem_map, List.getElem_range]
    have hrow : m[y].length = L := hrect _ (List.getElem_mem hy2)
    have hgd : m.getD y [] = m[y] := List.getD_eq_getElem _ _ hy2
    calc (List.range L).map (fun x => (T.getD x []).getD y default)
        = (List.range L).map (fun x => (m.getD y []).getD x default) := by
          apply List.map_congr_left
          intro x hx
          exact hentry y hyR x (by simpa using hx)
      _ = (List.range m[y].length).map (fun x => m[y].getD x default) := by
          rw [hgd, hrow]
      _ = m[y] := map_getD_range _ _

/-- Witness for `Transpose_involution` on a concrete 3x2 matrix. -/
theorem Transpose_involution_witness :
    (Transpose ([[1, 2], [3, 4], [5, 6]] : List (List Nat))).bind Transpose
      = some [[1, 2], [3, 4], [5, 6]] := by
  exact Transpose_involution _ 2 (by decide) (by decide) (by decide)

/-! ## Claim C5 -/

/-- Dropping leading zeros consumes a zero-filled block entirely. -/
theorem dropWhileZero_replicate_append (k : Nat) (l : List Nat) :
    List.dropWhile (fun x => x == 0) (List.replicate k 0 ++ l)
      = List.dropWhile (fun x => x == 0) l := by
  induction k with
  | zero => simp
  | succ n ih => simp [List.replicate_succ, List.dropWhile, ih]

/-- Dropping leading zeros does nothing to a list that contains no zero. -/
theorem dropWhileZero_of_noZero (l : List Nat) (h : (0 : Nat) ∉ l) :
    List.dropWhile (fun x => x == 0) l = l := by
  cases l with
  | nil => rfl
  | cons c t =>
    have hc : (c == 0) = false := by
      simp only [beq_eq_false_iff_ne, ne_eq]
      intro hc
      exact h (by simp [hc])
    simp [List.dropWhile, hc]

/-- `bytes.Trim(core ++ 0-padding, "\x00")` recovers `core` when `core`
contains no NUL byte. -/
theorem bytesTrimNul_padded (core : List Nat) (k : Nat)
    (h : (0 : Nat) ∉ core) :
    bytesTrimNul (core ++ List.replicate k 0) = core := by
  unfold bytesTrimNul
  rcases core with _ | ⟨c, t⟩
  · rw [List.nil_append,
      show List.replicate k 0 = List.replicate k 0 ++ ([] : List Nat) by simp,
      dropWhileZero_replicate_append]
    rfl
  · have hc : (c == 0) = false := by
      simp only [beq_eq_false_iff_ne, ne_eq]
      intro hc
      exact h (by simp [hc])
    rw [List.cons_append, List.dropWhile_cons, hc]
    simp only [Bool.false_eq_true, if_false, ← List.cons_append,
      List.reverse_append, List.reverse_replicate,
      dropWhileZero_replicate_append]
    rw [dropWhileZero_of_noZero _ (by
      intro hmem
      exact h (List.mem_reverse.mp hmem))]
    exact List.reverse_reverse _

/-- `getD` after a `drop` reads at the shifted offset. -/
theorem getD_drop (l : List Nat) (n i : Nat) :
    (l.drop n).getD i 0 = l.getD (n + i) 0 := by
  rw [List.getD_eq_getElem?_getD, List.getD_eq_getElem?_getD,
    List.getElem?_drop]

/-- C5: `NewProxy` writes exactly 12 bytes — the little-endian `u32` values
`0x02212102`, `1`, `1` at offsets 0, 4 and 8 — then, given the 24-byte
reply, sets `Port` to the little-endian `u32` formed by bytes 4..7 and
`Host` to the reply bytes from offset 8 with the padding NUL bytes
trimmed. -/
theorem NewProxy_handshake_spec (resp : List Nat) (_hlen : resp.length = 24) :
    (NewProxy resp).written.length = 12 ∧
    readLEU32 ((NewProxy resp).written.drop 0) = 0x02212102 ∧
    readLEU32 ((NewProxy resp).written.drop 4) = 1 ∧
    readLEU32 ((NewProxy resp).written.drop 8) = 1 ∧
    (NewProxy resp).Port = resp.getD 4 0 + 256 * resp.getD 5 0
      + 65536 * resp.getD 6 0 + 16777216 * resp.getD 7 0 ∧
    (∀ core k, resp.drop 8 = core ++ List.replicate k 0 → (0 : Nat) ∉ core →
      (NewProxy resp).Host = core) := by
  refine ⟨show proxyHandshakeReq.length = 12 by decide,
    show readLEU32 (proxyHandshakeReq.drop 0) = 0x02212102 by decide,
    show readLEU32 (proxyHandshakeReq.drop 4) = 1 by decide,
    show readLEU32 (proxyHandshakeReq.drop 8) = 1 by decide, ?_, ?_⟩
  · show readLEU32 (resp.drop 4) = _
    simp only [readLEU32, getD_drop]
  · intro core k hdrop hcore
    show bytesTrimNul (resp.drop 8) = core
    rw [hdrop]
    exact bytesTrimNul_padded core k hcore

/-- Witness for `NewProxy_handshake_spec` on a concrete 24-byte reply
carrying port 10000 and host `"host"` padded with NUL bytes. -/
theorem NewProxy_handshake_spec_witness :
    (NewProxy [0, 0, 0, 0, 16, 39, 0, 0, 104, 111, 115, 116,
        0, 0, 0, 0, 0, 0, 0, 0, 0, 0, 0, 0]).Port = 10000 ∧
    (NewProxy [0, 0, 0, 0, 16, 39, 0, 0, 104, 111, 115, 116,
        0, 0, 0, 0, 0, 0, 0, 0, 0, 0, 0, 0]).Host = [104, 111, 115, 116] := by
  have h := NewProxy_handshake_spec
    [0, 0, 0, 0, 16, 39, 0, 0, 104, 111, 115, 116,
      0, 0, 0, 0, 0, 0, 0, 0, 0, 0, 0, 0] (by decide)
  refine ⟨?_, h.2.2.2.2.2 [104, 111, 115, 116] 12 (by decide) (by decide)⟩
  rw [h.2.2.2.2.1]
  decide

/-! ## Claims C4, C9, C10: prepared-statement cache lemmas -/

/-- `oldestIn` returns the accumulator or an element of the list. -/
theorem oldestIn_mem (rest : PrepCache) (best : String × prepStmt) :
    oldestIn best rest = best ∨ oldestIn best rest ∈ rest := by
  induction rest generalizing best with
  | nil => exact Or.inl rfl
  | cons e t ih =>
    simp only [oldestIn]
    rcases ih (if e.2.lastUsed < best.2.lastUsed then e else best) with h | h
    · rw [h]
      split_ifs
      · exact Or.inr (List.mem_cons_self _ _)
      · exact Or.inl rfl
    · exact Or.inr (List.mem_cons_of_mem _ h)

/-- `oldestIn` returns an entry of minimal `lastUsed`. -/
theorem oldestIn_le (rest : PrepCache) (best : String × prepStmt) :
    (oldestIn best rest).2.lastUsed ≤ best.2.lastUsed ∧
    ∀ e ∈ rest, (oldestIn best rest).2.lastUsed ≤ e.2.lastUsed := by
  induction rest generalizing best with
  | nil =>
    refine ⟨le_refl _, ?_⟩
    intro e he
    simp at he
  | cons x t ih =>
    obtain ⟨h1, h2⟩ := ih (if x.2.lastUsed < best.2.lastUsed then x else best)
    simp only [oldestIn]
    constructor
    · refine le_trans h1 ?_
      split_ifs with hc
      · exact le_of_lt hc
      · exact le_refl _
    · intro e he
      rcases List.mem_cons.mp he with rfl | he
      · refine le_trans h1 ?_
        split_ifs with hc
        · exact le_refl _
        · exact le_of_not_lt hc
      · exact h2 e he

/-- The touched cache has at most one entry more than the input cache. -/
theorem touchedCache_length (now newSth : Nat) (newDefs : List String)
    (psc : PrepCache) (sql : String) :
    (touchedCache now newSth newDefs psc sql).length ≤ psc.length + 1 := by
  unfold touchedCache
  rcases cacheFind psc sql with _ | p <;> simp [cacheTouch]

/-- Pruning a cache of at most 1000 entries does nothing. -/
theorem pruneCache_small (psc2 : PrepCache) (h : ¬ 1000 < psc2.length) :
    pruneCache psc2 = (psc2, [], []) := by
  simp [pruneCache, h]

/-- Pruning a cache of more than 1000 entries deletes a minimal-`lastUsed`
entry and sends exactly one `closePreparedStatement` for its handle. -/
theorem pruneCache_big (psc2 : PrepCache) (h : 1000 < psc2.length) :
    ∃ least ∈ psc2, (∀ e ∈ psc2, least.2.lastUsed ≤ e.2.lastUsed) ∧
      pruneCache psc2 = (List.eraseP (fun x => x.1 == least.1) psc2,
        [least.2.sth], [least.1]) := by
  rcases psc2 with _ | ⟨e, rest⟩
  · simp at h
  · refine ⟨oldestIn e rest, ?_, ?_, ?_⟩
    · rcases oldestIn_mem rest e with hm | hm
      · rw [hm]
        exact List.mem_cons_self _ _
      · exact List.mem_cons_of_mem _ hm
    · intro f hf
      obtain ⟨h1, h2⟩ := oldestIn_le rest e
      rcases List.mem_cons.mp hf with rfl | hf
      · exact h1
      · exact h2 f hf
    · unfold pruneCache
      rw [if_pos h]

/-- Every entry of a touched cache keyed by the touched SQL text carries the
touch instant as its `lastUsed`. -/
theorem cacheTouch_key_lastUsed (base : PrepCache) (sql : String) (now : Nat) :
    ∀ f ∈ cacheTouch base sql now, f.1 = sql → f.2.lastUsed = now := by
  intro f hf hf1
  unfold cacheTouch at hf
  obtain ⟨b, hb, hbf⟩ := List.mem_map.mp hf
  by_cases hkey : (b.1 == sql) = true
  · rw [if_pos hkey] at hbf
    rw [← hbf]
  · rw [if_neg hkey] at hbf
    rw [hbf] at hkey
    exact absurd (by simp [hf1]) hkey

/-- Touching leaves entries with a different key untouched and in place. -/
theorem cacheTouch_mem_of_ne (base : PrepCache) (sql : String) (now : Nat)
    (e : String × prepStmt) (he : e ∈ base) (hne : e.1 ≠ sql) :
    e ∈ cacheTouch base sql now := by
  unfold cacheTouch
  apply List.mem_map.mpr
  refine ⟨e, he, ?_⟩
  rw [if_neg (by simp [hne])]

/-- `touchedCache` on a key other than the requested SQL text keeps the
entry. -/
theorem mem_touchedCache_of_ne (now newSth : Nat) (newDefs : List String)
    (psc : PrepCache) (sql : String) (e : String × prepStmt)
    (he : e ∈ psc) (hne : e.1 ≠ sql) :
    e ∈ touchedCache now newSth newDefs psc sql := by
  unfold touchedCache
  split
  · exact cacheTouch_mem_of_ne _ _ _ _ he hne
  · exact cacheTouch_mem_of_ne _ _ _ _ (List.mem_append_left _ he) hne

/-- Entries of `touchedCache` keyed by the requested SQL text have
`lastUsed = now`. -/
theorem touchedCache_key_lastUsed (now newSth : Nat) (newDefs : List String)
    (psc : PrepCache) (sql : String) :
    ∀ f ∈ touchedCache now newSth newDefs psc sql, f.1 = sql →
      f.2.lastUsed = now := by
  intro f hf
  unfold touchedCache at hf
  split at hf
  · exact cacheTouch_key_lastUsed _ _ _ f hf
  · exact cacheTouch_key_lastUsed _ _ _ f hf

/-- The statement returned to the caller is an entry of the touched cache,
keyed by the requested SQL text. -/
theorem returnedStmt_mem_touched (now newSth : Nat) (newDefs : List String)
    (psc : PrepCache) (sql : String) :
    (sql, returnedStmt now newSth newDefs psc sql)
      ∈ touchedCache now newSth newDefs psc sql := by
  unfold returnedStmt touchedCache
  rcases hfind : cacheFind psc sql with _ | p
  · apply List.mem_map.mpr
    refine ⟨(sql, ⟨newSth, now, newDefs⟩), List.mem_append_right _ (by simp), ?_⟩
    simp
  · obtain ⟨entry, hentry, hsnd⟩ :
        ∃ a, psc.find? (fun e => e.1 == sql) = some a ∧ a.2 = p := by
      unfold cacheFind at hfind
      exact Option.map_eq_some'.mp hfind
    have hkey : entry.1 = sql := by
      have := List.find?_some hentry
      exact eq_of_beq this
    have hmem : (sql, p) ∈ psc := by
      have : entry = (sql, p) := Prod.ext hkey hsnd
      rw [← this]
      exact List.mem_of_find?_eq_some hentry
    apply List.mem_map.mpr
    refine ⟨(sql, p), hmem, ?_⟩
    simp

/-! ## Claim C4 -/

/-- C4: starting from a cache of at most 1000 entries, `getPrepStmt` leaves
at most 1000 entries; whenever the insertion pushes the (touched) cache over
1000 entries, exactly one entry of oldest `lastUsed` is deleted and exactly
one `closePreparedStatement` request is sent, for that entry's handle;
otherwise nothing is closed or deleted. -/
theorem getPrepStmt_cache_bound (now newSth : Nat) (newDefs : List String)
    (psc : PrepCache) (stats : CacheStats) (sql : String)
    (hlen : psc.length ≤ 1000) :
    (getPrepStmt now newSth newDefs psc stats sql).cache.length ≤ 1000 ∧
    (1000 < (touchedCache now newSth newDefs psc sql).length →
      ∃ least ∈ touchedCache now newSth newDefs psc sql,
        (∀ e ∈ touchedCache now newSth newDefs psc sql,
          least.2.lastUsed ≤ e.2.lastUsed) ∧
        (getPrepStmt now newSth newDefs psc stats sql).closedSent
          = [least.2.sth] ∧
        (getPrepStmt now newSth newDefs psc stats sql).evicted = [least.1] ∧
        (getPrepStmt now newSth newDefs psc stats sql).cache
          = List.eraseP (fun x => x.1 == least.1)
              (touchedCache now newSth newDefs psc sql) ∧
        (getPrepStmt now newSth newDefs psc stats sql).cache.length = 1000) ∧
    (¬ 1000 < (touchedCache now newSth newDefs psc sql).length →
      (getPrepStmt now newSth newDefs psc stats sql).closedSent = [] ∧
      (getPrepStmt now newSth newDefs psc stats sql).evicted = [] ∧
      (getPrepStmt now newSth newDefs psc stats sql).cache
        = touchedCache now newSth newDefs psc sql) := by
  have hproj_cache : (getPrepStmt now newSth newDefs psc stats sql).cache
      = (pruneCache (touchedCache now newSth newDefs psc sql)).1 := rfl
  have hproj_closed :
      (getPrepStmt now newSth newDefs psc stats sql).closedSent
        = (pruneCache (touchedCache now newSth newDefs psc sql)).2.1 := rfl
  have hproj_ev : (getPrepStmt now newSth newDefs psc stats sql).evicted
      = (pruneCache (touchedCache now newSth newDefs psc sql)).2.2 := rfl
  have hub : (touchedCache now newSth newDefs psc sql).length ≤ psc.length + 1 :=
    touchedCache_length now newSth newDefs psc sql
  by_cases hbig : 1000 < (touchedCache now newSth newDefs psc sql).length
  · obtain ⟨least, hmem, hmin, heq⟩ :=
      pruneCache_big (touchedCache now newSth newDefs psc sql) hbig
    have hlen2 : (touchedCache now newSth newDefs psc sql).length = 1001 := by
      omega
    have herase : (List.eraseP (fun x => x.1 == least.1)
        (touchedCache now newSth newDefs psc sql)).length
          = (touchedCache now newSth newDefs psc sql).length - 1 :=
      List.length_eraseP_of_mem hmem (by simp)
    have hcache : (getPrepStmt now newSth newDefs psc stats sql).cache
        = List.eraseP (fun x => x.1 == least.1)
            (touchedCache now newSth newDefs psc sql) := by
      rw [hproj_cache, heq]
    refine ⟨?_, fun _ => ⟨least, hmem, hmin, ?_, ?_, hcache, ?_⟩,
      fun hsmall => absurd hbig hsmall⟩
    · rw [hcache, herase]
      omega
    · rw [hproj_closed, heq]
    · rw [hproj_ev, heq]
    · rw [hcache, herase, hlen2]
  · have hsm := pruneCache_small (touchedCache now newSth newDefs psc sql) hbig
    refine ⟨?_, fun hx => absurd hx hbig, fun _ => ⟨?_, ?_, ?_⟩⟩
    · rw [hproj_cache, hsm]
      show (touchedCache now newSth newDefs psc sql).length ≤ 1000
      omega
    · rw [hproj_closed, hsm]
    · rw [hproj_ev, hsm]
    · rw [hproj_cache, hsm]

/-- Witness for `getPrepStmt_cache_bound` at an empty cache. -/
theorem getPrepStmt_cache_bound_witness :
    (getPrepStmt 7 42 [] [] ⟨0, 0⟩ "SELECT 1").cache.length ≤ 1000 := by
  exact (getPrepStmt_cache_bound 7 42 [] [] ⟨0, 0⟩ "SELECT 1" (by decide)).1

/-! ## Claim C9 -/

/-- C9: acquiring a prepared statement for the same SQL text twice in a row
(starting from an empty cache and zero statistics) sends exactly one
`createPreparedStatement` — on the first call — and afterwards
`StmtCacheMiss = 1` and `StmtCacheLen = 1`; the second acquisition is a
cache hit that closes nothing and only updates the entry's `lastUsed` to the
second call's instant, returning the same handle. -/
theorem getPrepStmt_same_sql_twice (sql : String) (now1 now2 h1 h2 : Nat)
    (defs1 defs2 : List String) :
    (getPrepStmt now1 h1 defs1 [] ⟨0, 0⟩ sql).createdSent = true ∧
    (getPrepStmt now1 h1 defs1 [] ⟨0, 0⟩ sql).stats = ⟨1, 1⟩ ∧
    (getPrepStmt now1 h1 defs1 [] ⟨0, 0⟩ sql).closedSent = [] ∧
    (getPrepStmt now2 h2 defs2 (getPrepStmt now1 h1 defs1 [] ⟨0, 0⟩ sql).cache
        (getPrepStmt now1 h1 defs1 [] ⟨0, 0⟩ sql).stats sql).createdSent
      = false ∧
    (getPrepStmt now2 h2 defs2 (getPrepStmt now1 h1 defs1 [] ⟨0, 0⟩ sql).cache
        (getPrepStmt now1 h1 defs1 [] ⟨0, 0⟩ sql).stats sql).stats = ⟨1, 1⟩ ∧
    (getPrepStmt now2 h2 defs2 (getPrepStmt now1 h1 defs1 [] ⟨0, 0⟩ sql).cache
        (getPrepStmt now1 h1 defs1 [] ⟨0, 0⟩ sql).stats sql).cache
      = [(sql, ⟨h1, now2, defs1⟩)] ∧
    (getPrepStmt now2 h2 defs2 (getPrepStmt now1 h1 defs1 [] ⟨0, 0⟩ sql).cache
        (getPrepStmt now1 h1 defs1 [] ⟨0, 0⟩ sql).stats sql).ps
      = ⟨h1, now2, defs1⟩ ∧
    (getPrepStmt now2 h2 defs2 (getPrepStmt now1 h1 defs1 [] ⟨0, 0⟩ sql).cache
        (getPrepStmt now1 h1 defs1 [] ⟨0, 0⟩ sql).stats sql).closedSent
      = [] := by
  have e1 : getPrepStmt now1 h1 defs1 [] ⟨0, 0⟩ sql
      = ⟨⟨h1, now1, defs1⟩, [(sql, ⟨h1, now1, defs1⟩)], ⟨1, 1⟩, true,
          [], []⟩ := by
    simp [getPrepStmt, returnedStmt, touchedCache, cacheFind, cacheTouch,
      pruneCache]
  have e2 : getPrepStmt now2 h2 defs2 [(sql, ⟨h1, now1, defs1⟩)] ⟨1, 1⟩ sql
      = ⟨⟨h1, now2, defs1⟩, [(sql, ⟨h1, now2, defs1⟩)], ⟨1, 1⟩, false,
          [], []⟩ := by
    simp [getPrepStmt, returnedStmt, touchedCache, cacheFind, cacheTouch,
      pruneCache, List.find?]
  rw [e1]
  simp [e2]

/-! ## Claim C10 -/

/-- C10: when the cache holds an entry for another SQL text whose `lastUsed`
is older than the current instant, the entry evicted by `getPrepStmt` (if
any) is never the entry being returned: the returned statement's key
survives in the cache because its `lastUsed` was stamped to `now` before
pruning, and pruning removes an entry of oldest `lastUsed`. -/
theorem getPrepStmt_no_self_eviction (now newSth : Nat)
    (newDefs : List String) (psc : PrepCache) (stats : CacheStats)
    (sql : String)
    (hother : ∃ e ∈ psc, e.1 ≠ sql ∧ e.2.lastUsed < now) :
    sql ∉ (getPrepStmt now newSth newDefs psc stats sql).evicted ∧
    (sql, (getPrepStmt now newSth newDefs psc stats sql).ps)
      ∈ (getPrepStmt now newSth newDefs psc stats sql).cache := by
  obtain ⟨e0, he0, hne0, hlt0⟩ := hother
  have hproj_cache : (getPrepStmt now newSth newDefs psc stats sql).cache
      = (pruneCache (touchedCache now newSth newDefs psc sql)).1 := rfl
  have hproj_ev : (getPrepStmt now newSth newDefs psc stats sql).evicted
      = (pruneCache (touchedCache now newSth newDefs psc sql)).2.2 := rfl
  have hproj_ps : (getPrepStmt now newSth newDefs psc stats sql).ps
      = returnedStmt now newSth newDefs psc sql := rfl
  have he0t : e0 ∈ touchedCache now newSth newDefs psc sql :=
    mem_touchedCache_of_ne now newSth newDefs psc sql e0 he0 hne0
  have hps : (sql, returnedStmt now newSth newDefs psc sql)
      ∈ touchedCache now newSth newDefs psc sql :=
    returnedStmt_mem_touched now newSth newDefs psc sql
  by_cases hbig : 1000 < (touchedCache now newSth newDefs psc sql).length
  · obtain ⟨least, hmem, hmin, heq⟩ :=
      pruneCache_big (touchedCache now newSth newDefs psc sql) hbig
    have hleast_lt : least.2.lastUsed < now :=
      lt_of_le_of_lt (hmin e0 he0t) hlt0
    have hlne : least.1 ≠ sql := by
      intro hcontra
      have := touchedCache_key_lastUsed now newSth newDefs psc sql
        least hmem hcontra
      omega
    constructor
    · rw [hproj_ev, heq]
      simp only [List.mem_singleton]
      exact fun hc => hlne hc.symm
    · rw [hproj_cache, hproj_ps, heq]
      show (sql, returnedStmt now newSth newDefs psc sql)
        ∈ List.eraseP (fun x => x.1 == least.1)
            (touchedCache now newSth newDefs psc sql)
      refine (List.mem_eraseP_of_neg ?_).mpr hps
      simp only [beq_iff_eq]
      exact fun hc => hlne hc.symm
  · have hsm := pruneCache_small (touchedCache now newSth newDefs psc sql) hbig
    constructor
    · rw [hproj_ev, hsm]
      simp
    · rw [hproj_cache, hproj_ps, hsm]
      exact hps

/-- Witness for `getPrepStmt_no_self_eviction`: a cache holding one strictly
older entry under another key. -/
theorem getPrepStmt_no_self_eviction_witness :
    "SELECT 2" ∉ (getPrepStmt 5 9 [] [("SELECT 1", ⟨1, 0, []⟩)] ⟨1, 1⟩
        "SELECT 2").evicted ∧
    ("SELECT 2", (getPrepStmt 5 9 [] [("SELECT 1", ⟨1, 0, []⟩)] ⟨1, 1⟩
        "SELECT 2").ps)
      ∈ (getPrepStmt 5 9 [] [("SELECT 1", ⟨1, 0, []⟩)] ⟨1, 1⟩
        "SELECT 2").cache := by
  exact getPrepStmt_no_self_eviction 5 9 [] [("SELECT 1", ⟨1, 0, []⟩)] ⟨1, 1⟩
    "SELECT 2" ⟨("SELECT 1", ⟨1, 0, []⟩), by simp, by decide, by decide⟩

end GoExasol
